import Mathlib

/-!
Shallow embedding of the incorporation filing processor
(`entity_filer/filing_processors/incorporation_filing.py`) of the lear
business registry, together with proofs about its behaviour.

Python values appearing in filing payloads are modelled by `Json`;
Python exceptions by `PyErr`; fallible code returns `Except PyErr _`.
External services (the COLIN number allocator, the accounts/affiliation
service, the namex name service) are modelled by explicit environment
records giving each outbound call's outcome, and the functions that talk
to them return a trace of the calls they issued and the monitoring
(sentry) events they recorded.
-/

set_option linter.unusedVariables false

namespace IncorporationFiling

/-- Python values as they appear in (parsed) JSON payloads.  `null` also
stands for Python `None`. -/
inductive Json where
  | null : Json
  | bool (b : Bool) : Json
  | num (n : Int) : Json
  | str (s : String) : Json
  | arr (elems : List Json) : Json
  | obj (fields : List (String × Json)) : Json

/-- Python exceptions distinguished by the handlers in the source. -/
inductive PyErr where
  | queueException (msg : String) : PyErr
  | keyError (key : String) : PyErr
  | typeError (msg : String) : PyErr
  | attributeError (msg : String) : PyErr
deriving Repr, DecidableEq

/-- Python truthiness of a `Json` value (`None`, `False`, `0`, `''`,
`[]` and an empty dict are falsy). -/
def Json.truthy : Json → Bool
  | .null => false
  | .bool b => b
  | .num n => n != 0
  | .str s => s != ""
  | .arr elems => !elems.isEmpty
  | .obj fields => !fields.isEmpty

/-- `d.get(key)` on a Python value: returns `None` for a missing key on a
dict, raises `AttributeError` on a value that is not a dict. -/
def Json.get (j : Json) (key : String) : Except PyErr Json :=
  match j with
  | .obj fields =>
    match fields.lookup key with
    | some v => .ok v
    | none => .ok .null
  | _ => .error (.attributeError "object has no attribute get")

/-- `d[key]` on a Python value: raises `KeyError` for a missing key on a
dict and `TypeError` when subscripting a non-dict (such as `None`). -/
def Json.getItem (j : Json) (key : String) : Except PyErr Json :=
  match j with
  | .obj fields =>
    match fields.lookup key with
    | some v => .ok v
    | none => .error (.keyError key)
  | .null => .error (.typeError "NoneType object is not subscriptable")
  | _ => .error (.typeError "object is not subscriptable")

/-- Update (or append, Python dict semantics) the binding of `key`. -/
def setField : List (String × Json) → String → Json → List (String × Json)
  | [], key, v => [(key, v)]
  | (k0, v0) :: rest, key, v =>
    if k0 == key then (key, v) :: rest else (k0, v0) :: setField rest key v

/-- `d[key] = v` on a Python value: raises `TypeError` on a non-dict. -/
def Json.setItem (j : Json) (key : String) (v : Json) : Except PyErr Json :=
  match j with
  | .obj fields => .ok (.obj (setField fields key v))
  | .null => .error (.typeError "NoneType object does not support item assignment")
  | _ => .error (.typeError "object does not support item assignment")

/-- `d.items()` on a Python value: only dicts have `.items`; calling it on
`None` (or any non-dict) raises `AttributeError`. -/
def Json.items : Json → Except PyErr (List (String × Json))
  | .obj fields => .ok fields
  | _ => .error (.attributeError "object has no attribute items")

/-- `for x in j`: iterating a JSON list.  Iterating `None` raises
`TypeError`; other non-list values are also modelled as `TypeError`. -/
def Json.iter : Json → Except PyErr (List Json)
  | .arr elems => .ok elems
  | .null => .error (.typeError "NoneType object is not iterable")
  | _ => .error (.typeError "object is not iterable")

/-- Python `str(...)` of a payload value (dict/list reprs abbreviated;
no claim depends on those renderings). -/
def pyStr : Json → String
  | .str s => s
  | .num n => toString n
  | .bool true => "True"
  | .bool false => "False"
  | .null => "None"
  | .arr _ => "[...]"
  | .obj _ => "\x7b...\x7d"

/-- A naive datetime, enough to model `Filing.effective_date` and
Python's `datetime.isoformat()`. -/
structure DateTime where
  year : Nat
  month : Nat
  day : Nat
  hour : Nat
  minute : Nat
  second : Nat
deriving Repr, DecidableEq

def pad2 (n : Nat) : String :=
  if n < 10 then "0" ++ toString n else toString n

def pad4 (n : Nat) : String :=
  if n < 10 then "000" ++ toString n
  else if n < 100 then "00" ++ toString n
  else if n < 1000 then "0" ++ toString n
  else toString n

/-- `datetime.isoformat()` (seconds precision, no timezone). -/
def DateTime.isoformat (d : DateTime) : String :=
  pad4 d.year ++ "-" ++ pad2 d.month ++ "-" ++ pad2 d.day ++ "T" ++
    pad2 d.hour ++ ":" ++ pad2 d.minute ++ ":" ++ pad2 d.second

/-- A child office record built by `create_office` (filing_components). -/
structure Office where
  office_type : String
  addresses : Json

/-- A party as built by `create_party` (filing_components). -/
structure Party where
  party_info : Json

/-- A party role as built by `create_role` (filing_components). -/
structure PartyRole where
  party : Party
  role_info : Json

/-- A share class as built by `create_share_class` (filing_components). -/
structure ShareClass where
  share_class_info : Json

/-- The `Business` model (the fields this processor touches).
`Business()` starts with every scalar `None` and empty collections. -/
structure Business where
  identifier : Option String := none
  legal_name : Json := .null
  legal_type : Json := .null
  founding_date : Option DateTime := none
  offices : List Office := []
  party_roles : List PartyRole := []
  share_classes : List ShareClass := []
  aliases : List Json := []

/-- The `Filing` model record (the fields this processor touches). -/
structure Filing where
  id : Nat
  temp_reg : String
  filing_json : Json
  effective_date : DateTime

/-- The bootstrap registration record resolved by
`RegistrationBootstrap.find_by_identifier`. -/
structure Bootstrap where
  account : String
  identifier : String

/-- Outcome of the outbound COLIN call made by `get_next_corp_num`:
either a `requests.exceptions.ConnectionError` or a response with a
status code and a `corpNum` body value. -/
inductive ColinResp where
  | connError : ColinResp
  | resp (status : Nat) (corpNum : Int) : ColinResp

/-- Python `f'{n:07d}'`: zero-pad to overall width 7 (sign included). -/
def zeroPad7 (n : Int) : String :=
  let body := toString n.natAbs
  if n < 0 then
    "-" ++ String.mk (List.replicate (6 - body.length) '0') ++ body
  else
    String.mk (List.replicate (7 - body.length) '0') ++ body

/-- `get_next_corp_num(business_type)`: ask COLIN for the next corp
number.  Returns `none` on connection error, on a non-200 status, on a
falsy (zero) `corpNum`, and on a `corpNum` above 9,999,999; otherwise
the type code concatenated with the number zero-padded to width 7. -/
def get_next_corp_num (colin : ColinResp) (business_type : String) : Option String :=
  match colin with
  | .connError => none
  | .resp status corpNum =>
    if status == 200 then
      if corpNum != 0 && corpNum ≤ 9999999 then
        some (business_type ++ zeroPad7 corpNum)
      else none
    else none

/-- `update_business_info(corp_num, business, business_info, filing,
filing_rec)`: requires all five arguments truthy, else returns `None`.
Sets identifier, legal name (with the numbered-company fallback), legal
type and founding date (from the filing record's effective date).  The
`.get` calls can raise if `business_info` is a truthy non-dict, hence
the `Except` wrapper. -/
def update_business_info (corp_num : String) (business : Option Business)
    (business_info : Json) (filing : Json) (filing_rec : Option Filing) :
    Except PyErr (Option Business) := do
  match business, filing_rec with
  | some b, some fr =>
    if corp_num != "" && business_info.truthy && filing.truthy then do
      let legal_name ← business_info.get "legalName"
      let legal_type ← business_info.get "legalType"
      let b := { b with
        identifier := some corp_num
        legal_name := if legal_name.truthy then legal_name
                      else .str ((corp_num.drop 2) ++ " B.C. LTD.")
        legal_type := legal_type
        founding_date := some fr.effective_date }
      pure (some b)
    else
      pure none
  | _, _ => pure none

/-- Modelled from the spec: `create_office` (from
`filing_processors.filing_components`, whose source is not in scope)
maps an office type and its addresses to a child office record. -/
def create_office (office_type : String) (addresses : Json) : Office :=
  { office_type := office_type, addresses := addresses }

/-- Modelled from the spec: `create_party` (filing_components, source not
in scope) maps party info from the filing JSON to a party record. -/
def create_party (party_info : Json) : Party :=
  { party_info := party_info }

/-- Modelled from the spec: `create_role` (filing_components, source not
in scope) pairs a party with a role dict. -/
def create_role (party : Party) (role_info : Json) : PartyRole :=
  { party := party, role_info := role_info }

/-- Modelled from the spec: `create_share_class` (filing_components,
source not in scope) maps share class info to a share class record. -/
def create_share_class (share_class_info : Json) : ShareClass :=
  { share_class_info := share_class_info }

/-- Modelled from the spec: `aliases.update_aliases` (filing_components,
source not in scope); name translations are passed through unmodified. -/
def update_aliases (b : Business) (name_translations : Json) : Business :=
  match name_translations with
  | .arr elems => { b with aliases := b.aliases ++ elems }
  | j => { b with aliases := b.aliases ++ [j] }

/-- The argument `filing: Dict` of `process`. -/
abbrev PyDict := List (String × Json)

/-- `d.get(key)` on an honest Python dict: total, `None` when absent. -/
def PyDict.get (d : PyDict) (key : String) : Json :=
  (d.lookup key).getD .null

def msgMissing (fid : Nat) : String :=
  "IA legal_filing:incorporationApplication missing from " ++ toString fid

def msgExists (fid : Nat) : String :=
  "Business Already Exist: IA legal_filing:incorporationApplication " ++ toString fid

def msgNoCorpNum (fid : Nat) : String :=
  "incorporationApplication " ++ toString fid ++ " unable to get a business registration number."

def msgNoBusiness (fid : Nat) : String :=
  "IA incorporationApplication " ++ toString fid ++ ", Unable to create business."

/-- The offices loop of `process` (source lines 160-163):
`offices = incorp_filing.get('offices', None)` followed directly by
`for office_type, addresses in offices.items()` — note there is no
`None` check between the two, so a missing `offices` key raises
`AttributeError` from `None.items()`. -/
def attach_offices (incorp_filing : Json) (business : Business) : Except PyErr Business := do
  let offices ← incorp_filing.get "offices"
  let officeItems ← offices.items
  pure (officeItems.foldl
    (fun b p => { b with offices := b.offices ++ [create_office p.1 p.2] }) business)

/-- The parties loop of `process` (source lines 165-176):
`parties = incorp_filing.get('parties', None)` guarded by `if parties:`
before iterating, each party's roles iterated via
`party_info.get('roles')`. -/
def attach_parties (incorp_filing : Json) (business : Business) : Except PyErr Business := do
  let parties ← incorp_filing.get "parties"
  if parties.truthy then do
    let plist ← parties.iter
    plist.foldlM (fun b party_info => do
      let party := create_party party_info
      let roles ← party_info.get "roles"
      let rlist ← roles.iter
      rlist.foldlM (fun b role_type => do
        let roleType ← role_type.get "roleType"
        let appointmentDate ← role_type.get "appointmentDate"
        let cessationDate ← role_type.get "cessationDate"
        let role : Json := .obj [("roleType", roleType),
                                 ("appointmentDate", appointmentDate),
                                 ("cessationDate", cessationDate)]
        pure { b with party_roles := b.party_roles ++ [create_role party role] }) b) business
  else pure business

/-- The share classes block of `process` (source lines 178-182):
`share_classes = incorp_filing['shareClasses']` — a subscript, so a
missing `shareClasses` key raises `KeyError`. -/
def attach_share_classes (incorp_filing : Json) (business : Business) :
    Except PyErr Business := do
  let share_classes ← incorp_filing.getItem "shareClasses"
  if share_classes.truthy then do
    let slist ← share_classes.iter
    pure (slist.foldl (fun b sc =>
      { b with share_classes := b.share_classes ++ [create_share_class sc] }) business)
  else pure business

/-- The name translations block of `process` (source lines 184-185). -/
def attach_name_translations (incorp_filing : Json) (business : Business) :
    Except PyErr Business := do
  let name_translations ← incorp_filing.get "nameTranslations"
  pure (if name_translations.truthy then update_aliases business name_translations
        else business)

/-- The payload finalization of `process` (source lines 187-190):
deep-copy the stored filing JSON (identity on immutable values), set
`['filing']['business']['identifier']` and
`['filing']['business']['foundingDate']`, and store the result back on
the filing record. -/
def finalize_filing_json (business : Business) (filing_rec : Filing) :
    Except PyErr Filing := do
  let fjson := filing_rec.filing_json
  let filingObj ← fjson.getItem "filing"
  let businessObj ← filingObj.getItem "business"
  let identJson : Json := match business.identifier with
    | some s => .str s
    | none => .null
  let businessObj2 ← businessObj.setItem "identifier" identJson
  let isoDate ← match business.founding_date with
    | some d => pure (Json.str d.isoformat)
    | none => throw (.attributeError "NoneType object has no attribute isoformat")
  let businessObj3 ← businessObj2.setItem "foundingDate" isoDate
  let filingObj2 ← filingObj.setItem "business" businessObj3
  let fjson2 ← fjson.setItem "filing" filingObj2
  pure { filing_rec with filing_json := fjson2 }

/-- `process(business, filing, filing_rec)`: the incorporation filing
orchestrator (source lines 137-191), composed of the guards, the corp
number allocation, the aggregate build and the blocks above, in source
order.  `colin` is the outcome of the one outbound COLIN call made
through `get_next_corp_num`. -/
def process (colin : ColinResp) (business0 : Option Business) (filing : PyDict)
    (filing_rec : Filing) : Except PyErr (Business × Filing) := do
  let incorp_filing := filing.get "incorporationApplication"
  if !incorp_filing.truthy then
    throw (.queueException (msgMissing filing_rec.id))
  if business0.isSome then
    throw (.queueException (msgExists filing_rec.id))
  let business_info ← incorp_filing.get "nameRequest"
  let legal_type_j ← business_info.getItem "legalType"
  match get_next_corp_num colin (pyStr legal_type_j) with
  | none => throw (.queueException (msgNoCorpNum filing_rec.id))
  | some corp_num =>
  if corp_num == "" then
    throw (.queueException (msgNoCorpNum filing_rec.id))
  let business? ← update_business_info corp_num (some {}) business_info incorp_filing
    (some filing_rec)
  match business? with
  | none => throw (.queueException (msgNoBusiness filing_rec.id))
  | some business =>
  let business ← attach_offices incorp_filing business
  let business ← attach_parties incorp_filing business
  let business ← attach_share_classes incorp_filing business
  let business ← attach_name_translations incorp_filing business
  let filing_rec2 ← finalize_filing_json business filing_rec
  pure (business, filing_rec2)

def pyStrOpt : Option String → String
  | some s => s
  | none => "None"

def pyErrStr : PyErr → String
  | .queueException m => m
  | .keyError k => k
  | .typeError m => m
  | .attributeError m => m

def optStrJson : Option String → Json
  | some s => .str s
  | none => .null

/-- An outbound call to the accounts/affiliation service. -/
inductive AffilCall where
  | createAffiliation (account : String) (business_registration : Json)
      (business_name : Json) (corp_type_code : Json) : AffilCall
  | deleteAffiliation (account : String) (affil_identifier : Json) : AffilCall

/-- Whether a call is a `delete_affiliation` call. -/
def AffilCall.isDelete : AffilCall → Bool
  | .deleteAffiliation _ _ => true
  | _ => false

/-- Outcomes of the external interactions `update_affiliation` may
perform, in program order: the bootstrap lookup, the primary affiliation
creation, the cleanup deletion (failure branch), the bootstrap-identifier
deletion and the TMP re-creation (success branch).  `.error` means the
underlying call raised. -/
structure AffilEnv where
  find_bootstrap : Option Bootstrap
  create_rv : Except PyErr Nat
  delete_business_rv : Except PyErr Nat
  delete_bootstrap_rv : Except PyErr Nat
  create_tmp_rv : Except PyErr Nat

/-- Observable outcome of a best-effort component run: outbound calls
issued, sentry messages captured, and the exception escaping to the
caller, if any. -/
structure AffilTrace where
  calls : List AffilCall
  sentries : List String
  raised : Option PyErr

def affilUnableMsg (business : Business) (filing : Filing) : String :=
  "Queue Error: Unable to affiliate business:" ++ pyStrOpt business.identifier ++
    " for filing:" ++ toString filing.id

def affilErrMsg (filing : Filing) (e : PyErr) : String :=
  "Queue Error: Affiliation error for filing:" ++ toString filing.id ++
    ", with err:" ++ pyErrStr e

/-- The body of the `try` block of `update_affiliation`: returns the
calls issued, the sentry messages recorded inside the block, and the
exception reaching the `except` handler, if any. -/
def update_affiliation_body (env : AffilEnv) (business : Business) (filing : Filing) :
    List AffilCall × List String × Option PyErr :=
  match env.find_bootstrap with
  | none => ([], [], some (.attributeError "NoneType object has no attribute account"))
  | some bootstrap =>
    let c1 := AffilCall.createAffiliation bootstrap.account (optStrJson business.identifier)
                business.legal_name business.legal_type
    match env.create_rv with
    | .error e => ([c1], [], some e)
    | .ok rv =>
      if rv != 200 && rv != 201 then
        let c2 := AffilCall.deleteAffiliation bootstrap.account (optStrJson business.identifier)
        match env.delete_business_rv with
        | .error e => ([c1, c2], [], some e)
        | .ok deaffiliation =>
          ([c1, c2], [affilUnableMsg business filing], some (.queueException ""))
      else
        let c2 := AffilCall.deleteAffiliation bootstrap.account (.str bootstrap.identifier)
        match env.delete_bootstrap_rv with
        | .error e => ([c1, c2], [], some e)
        | .ok old_bs_affiliation =>
          let c3 := AffilCall.createAffiliation bootstrap.account (.str bootstrap.identifier)
                      (optStrJson business.identifier) (.str "TMP")
          match env.create_tmp_rv with
          | .error e => ([c1, c2, c3], [], some e)
          | .ok new_bs_affiliation =>
            let reaffiliate := (new_bs_affiliation == 200 || new_bs_affiliation == 201) &&
                                 old_bs_affiliation == 200
            if !reaffiliate then ([c1, c2, c3], [], some (.queueException ""))
            else ([c1, c2, c3], [], none)

/-- `update_affiliation(business, filing)`: the `try` body wrapped in the
broad `except Exception` handler, which records a sentry message and
swallows the exception. -/
def update_affiliation (env : AffilEnv) (business : Business) (filing : Filing) : AffilTrace :=
  match update_affiliation_body env business filing with
  | (calls, sentries, none) => { calls := calls, sentries := sentries, raised := none }
  | (calls, sentries, some e) =>
      { calls := calls, sentries := sentries ++ [affilErrMsg filing e], raised := none }

/-- An outbound call made by `consume_nr`. -/
inductive NrCall where
  | getBearerToken : NrCall
  | patchNamex (url : String) (corpNum : Json) : NrCall
  | deleteAffiliation (account : String) (nr : Json) : NrCall

/-- Outcomes of the external interactions `consume_nr` may perform. -/
structure NrEnv where
  namex_url : String
  find_bootstrap : Option Bootstrap
  token : Except PyErr String
  patch_rv : Except PyErr Nat
  delete_rv : Except PyErr Nat

/-- Observable outcome of a `consume_nr` run. -/
structure NrTrace where
  calls : List NrCall
  sentries : List String
  raised : Option PyErr

/-- The `nrNumber` extraction at the top of `consume_nr`:
`filing.filing_json['filing']['incorporationApplication']['nameRequest']['nrNumber']`. -/
def nr_num_of (filing : Filing) : Except PyErr Json := do
  let f ← filing.filing_json.getItem "filing"
  let ia ← f.getItem "incorporationApplication"
  let nr ← ia.getItem "nameRequest"
  nr.getItem "nrNumber"

/-- The body of the `try` block of `consume_nr`: the calls issued and the
exception reaching the handlers, if any.  The bootstrap lookup is a
local model query, not an outbound call; `''.join([namex_svc_url,
nr_num])` raises `TypeError` when `nr_num` is not a string, after the
token has already been fetched. -/
def consume_nr_body (env : NrEnv) (business : Business) (filing : Filing) :
    List NrCall × Option PyErr :=
  match nr_num_of filing with
  | .error e => ([], some e)
  | .ok nr_num =>
    match env.token with
    | .error e => ([.getBearerToken], some e)
    | .ok _tok =>
      match nr_num with
      | .str nr_str =>
        let pc := NrCall.patchNamex (env.namex_url ++ nr_str) (optStrJson business.identifier)
        match env.patch_rv with
        | .error e => ([.getBearerToken, pc], some e)
        | .ok status =>
          if status != 200 then ([.getBearerToken, pc], some (.queueException ""))
          else
            match env.find_bootstrap with
            | none => ([.getBearerToken, pc],
                some (.attributeError "NoneType object has no attribute account"))
            | some bootstrap =>
              let dc := NrCall.deleteAffiliation bootstrap.account (.str nr_str)
              match env.delete_rv with
              | .error e => ([.getBearerToken, pc, dc], some e)
              | .ok _ => ([.getBearerToken, pc, dc], none)
      | _ => ([.getBearerToken], some (.typeError "sequence item 1: expected str instance"))

def consumeErrMsg (filing : Filing) : String :=
  "Queue Error: Consume NR error for filing:" ++ toString filing.id

/-- `consume_nr(business, filing)`: the `try` body wrapped in
`except KeyError: pass` and the broad `except Exception` handler that
records a sentry message.  No exception ever escapes. -/
def consume_nr (env : NrEnv) (business : Business) (filing : Filing) : NrTrace :=
  match consume_nr_body env business filing with
  | (calls, none) => { calls := calls, sentries := [], raised := none }
  | (calls, some (.keyError _)) => { calls := calls, sentries := [], raised := none }
  | (calls, some _) => { calls := calls, sentries := [consumeErrMsg filing], raised := none }

/-! Concrete example data, used to instantiate the theorems below. -/

/-- A concrete filing record whose stored JSON has the
`filing.business` sub-object expected by payload finalization. -/
def exFilingRec : Filing :=
  { id := 7, temp_reg := "T123",
    filing_json := .obj [("filing", .obj [("business", .obj [])])],
    effective_date := ⟨2020, 5, 17, 10, 30, 0⟩ }

/-- The end-to-end scenario filing of spec section 8: one office, one
party with one role, one share class. -/
def exFiling : PyDict :=
  [("incorporationApplication", .obj [
    ("nameRequest", .obj [("legalType", .str "BC")]),
    ("offices", .obj [("registeredOffice", .obj [("deliveryAddress", .str "x")])]),
    ("parties", .arr [.obj [("roles", .arr [.obj [("roleType", .str "Director")]])]]),
    ("shareClasses", .arr [.obj [("name", .str "cls")]])])]

/-- Like `exFiling` but without the `offices` key. -/
def exFilingNoOffices : PyDict :=
  [("incorporationApplication", .obj [
    ("nameRequest", .obj [("legalType", .str "BC")]),
    ("parties", .arr [.obj [("roles", .arr [.obj [("roleType", .str "Director")]])]]),
    ("shareClasses", .arr [.obj [("name", .str "cls")]])])]

/-- Like `exFiling` but without the `parties` key. -/
def exFilingNoParties : PyDict :=
  [("incorporationApplication", .obj [
    ("nameRequest", .obj [("legalType", .str "BC")]),
    ("offices", .obj [("registeredOffice", .obj [("deliveryAddress", .str "x")])]),
    ("shareClasses", .arr [.obj [("name", .str "cls")]])])]

/-- Like `exFiling` but without the `parties` and `shareClasses` keys. -/
def exFilingNoShares : PyDict :=
  [("incorporationApplication", .obj [
    ("nameRequest", .obj [("legalType", .str "BC")]),
    ("offices", .obj [("registeredOffice", .obj [("deliveryAddress", .str "x")])])])]

/-- Like `exFiling` but without the `nameRequest` key. -/
def exFilingNoNR : PyDict :=
  [("incorporationApplication", .obj [
    ("offices", .obj [("registeredOffice", .obj [("deliveryAddress", .str "x")])])])]

/-- Like `exFilingRec` but whose stored JSON lacks `filing.business`. -/
def exFilingRecNoBiz : Filing :=
  { id := 7, temp_reg := "T123",
    filing_json := .obj [("filing", .obj [])],
    effective_date := ⟨2020, 5, 17, 10, 30, 0⟩ }

/-- A concrete bootstrap record. -/
def exBootstrap : Bootstrap := { account := "acc1", identifier := "T123" }

/-- A concrete built business, as `update_affiliation` would receive. -/
def exBusiness : Business :=
  { identifier := some "BC0000042", legal_name := .str "0000042 B.C. LTD.",
    legal_type := .str "BC", founding_date := some ⟨2020, 5, 17, 10, 30, 0⟩ }

/-- Whether an exception is the queue-level processing exception. -/
def PyErr.isQueue : PyErr → Bool
  | .queueException _ => true
  | _ => false

/-- Whether a call outcome is a success (no exception raised). -/
def exceptOk {α : Type} : Except PyErr α → Bool
  | .ok _ => true
  | .error _ => false

def exAffilEnvFail : AffilEnv :=
  { find_bootstrap := some exBootstrap, create_rv := .ok 400,
    delete_business_rv := .ok 200, delete_bootstrap_rv := .ok 200, create_tmp_rv := .ok 200 }

def exNrEnv : NrEnv :=
  { namex_url := "https://namex/", find_bootstrap := some exBootstrap,
    token := .ok "tok", patch_rv := .ok 200, delete_rv := .ok 200 }

def exFilingRecNoNR : Filing :=
  { id := 7, temp_reg := "T123",
    filing_json := .obj [("filing", .obj [("incorporationApplication",
      .obj [("nameRequest", .obj [("legalType", .str "BC")])])])],
    effective_date := ⟨2020, 5, 17, 10, 30, 0⟩ }

def exFilingRecWithNR : Filing :=
  { id := 7, temp_reg := "T123",
    filing_json := .obj [("filing", .obj [("incorporationApplication",
      .obj [("nameRequest", .obj [("legalType", .str "BC"),
                                  ("nrNumber", .str "NR 1234567")])])])],
    effective_date := ⟨2020, 5, 17, 10, 30, 0⟩ }

theorem bind_ok {α β : Type} {e : Except PyErr α} {k : α → Except PyErr β} {b : β}
    (h : e >>= k = .ok b) : ∃ a, e = .ok a ∧ k a = .ok b := by
  cases e with
  | error err => simp [Bind.bind, Except.bind] at h
  | ok a => exact ⟨a, rfl, by simpa [Bind.bind, Except.bind] using h⟩

theorem getItem_ok {j : Json} {k : String} {v : Json} (h : j.getItem k = .ok v) :
    ∃ fs, j = .obj fs ∧ fs.lookup k = some v := by
  cases j with
  | obj fs =>
    refine ⟨fs, rfl, ?_⟩
    cases hl : fs.lookup k with
    | none => simp [Json.getItem, hl] at h
    | some w => simp [Json.getItem, hl] at h; rw [h]
  | null => simp [Json.getItem] at h
  | bool b => simp [Json.getItem] at h
  | num n => simp [Json.getItem] at h
  | str s => simp [Json.getItem] at h
  | arr l => simp [Json.getItem] at h

theorem setItem_ok {j : Json} {k : String} {v j2 : Json} (h : j.setItem k v = .ok j2) :
    ∃ fs, j = .obj fs ∧ j2 = .obj (setField fs k v) := by
  cases j with
  | obj fs =>
    refine ⟨fs, rfl, ?_⟩
    simp [Json.setItem] at h
    rw [← h]
  | null => simp [Json.setItem] at h
  | bool b => simp [Json.setItem] at h
  | num n => simp [Json.setItem] at h
  | str s => simp [Json.setItem] at h
  | arr l => simp [Json.setItem] at h

theorem lookup_setField_self (fs : List (String × Json)) (k : String) (v : Json) :
    (setField fs k v).lookup k = some v := by
  induction fs with
  | nil => simp [setField, List.lookup]
  | cons hd tl ih =>
    obtain ⟨k0, v0⟩ := hd
    by_cases hk : k0 = k
    · subst hk
      simp [setField, List.lookup]
    · have h1 : (k0 == k) = false := beq_eq_false_iff_ne.mpr hk
      have h2 : (k == k0) = false := beq_eq_false_iff_ne.mpr (Ne.symm hk)
      simp [setField, h1, List.lookup, h2, ih]

theorem lookup_setField_ne (fs : List (String × Json)) (k k2 : String) (v : Json)
    (hk : k2 ≠ k) : (setField fs k v).lookup k2 = fs.lookup k2 := by
  induction fs with
  | nil => simp [setField, List.lookup, beq_eq_false_iff_ne.mpr hk]
  | cons hd tl ih =>
    obtain ⟨k0, v0⟩ := hd
    by_cases h0 : k0 = k
    · subst h0
      simp [setField, List.lookup, beq_eq_false_iff_ne.mpr hk]
    · simp [setField, beq_eq_false_iff_ne.mpr h0, List.lookup, ih]

theorem foldl_preserves {α : Type} (f : Business → α → Business)
    (hf : ∀ b a, (f b a).identifier = b.identifier ∧ (f b a).founding_date = b.founding_date) :
    ∀ (l : List α) (b : Business),
      (List.foldl f b l).identifier = b.identifier ∧
      (List.foldl f b l).founding_date = b.founding_date := by
  intro l
  induction l with
  | nil => intro b; exact ⟨rfl, rfl⟩
  | cons a tl ih =>
    intro b
    have h1 := ih (f b a)
    have h2 := hf b a
    exact ⟨h1.1.trans h2.1, h1.2.trans h2.2⟩

theorem foldlM_preserves {α : Type} (f : Business → α → Except PyErr Business)
    (hf : ∀ b a b2, f b a = .ok b2 →
      b2.identifier = b.identifier ∧ b2.founding_date = b.founding_date) :
    ∀ (l : List α) (b b2 : Business), List.foldlM f b l = .ok b2 →
      b2.identifier = b.identifier ∧ b2.founding_date = b.founding_date := by
  intro l
  induction l with
  | nil =>
    intro b b2 h
    simp [List.foldlM, pure, Except.pure] at h
    subst h
    exact ⟨rfl, rfl⟩
  | cons a tl ih =>
    intro b b2 h
    simp only [List.foldlM] at h
    cases hfa : f b a with
    | error e =>
      rw [hfa] at h
      simp [Bind.bind, Except.bind] at h
    | ok b1 =>
      rw [hfa] at h
      simp only [Bind.bind, Except.bind] at h
      have h1 := hf b a b1 hfa
      have h2 := ih b1 b2 h
      exact ⟨h2.1.trans h1.1, h2.2.trans h1.2⟩

theorem update_aliases_preserves (b : Business) (nt : Json) :
    (update_aliases b nt).identifier = b.identifier ∧
    (update_aliases b nt).founding_date = b.founding_date := by
  cases nt <;> exact ⟨rfl, rfl⟩

theorem attach_offices_preserves {incorp : Json} {b b2 : Business}
    (h : attach_offices incorp b = .ok b2) :
    b2.identifier = b.identifier ∧ b2.founding_date = b.founding_date := by
  unfold attach_offices at h
  obtain ⟨offices, h1, h⟩ := bind_ok h
  obtain ⟨items, h2, h⟩ := bind_ok h
  simp only [pure, Except.pure, Except.ok.injEq] at h
  subst h
  refine foldl_preserves _ ?_ items b
  exact fun b a => ⟨rfl, rfl⟩

theorem attach_parties_preserves {incorp : Json} {b b2 : Business}
    (h : attach_parties incorp b = .ok b2) :
    b2.identifier = b.identifier ∧ b2.founding_date = b.founding_date := by
  unfold attach_parties at h
  obtain ⟨parties, h1, h⟩ := bind_ok h
  by_cases ht : parties.truthy = true
  · rw [if_pos ht] at h
    obtain ⟨plist, h2, h⟩ := bind_ok h
    refine foldlM_preserves _ ?_ plist b b2 h
    intro b a b2 hstep
    obtain ⟨roles, hr, hstep⟩ := bind_ok hstep
    obtain ⟨rlist, hrl, hstep⟩ := bind_ok hstep
    refine foldlM_preserves _ ?_ rlist b b2 hstep
    intro b rt b2 hs
    obtain ⟨x1, hx1, hs⟩ := bind_ok hs
    obtain ⟨x2, hx2, hs⟩ := bind_ok hs
    obtain ⟨x3, hx3, hs⟩ := bind_ok hs
    simp only [pure, Except.pure, Except.ok.injEq] at hs
    subst hs
    exact ⟨rfl, rfl⟩
  · rw [if_neg ht] at h
    simp only [pure, Except.pure, Except.ok.injEq] at h
    subst h
    exact ⟨rfl, rfl⟩

theorem attach_share_classes_preserves {incorp : Json} {b b2 : Business}
    (h : attach_share_classes incorp b = .ok b2) :
    b2.identifier = b.identifier ∧ b2.founding_date = b.founding_date := by
  unfold attach_share_classes at h
  obtain ⟨sc, h1, h⟩ := bind_ok h
  by_cases ht : sc.truthy = true
  · rw [if_pos ht] at h
    obtain ⟨slist, h2, h⟩ := bind_ok h
    simp only [pure, Except.pure, Except.ok.injEq] at h
    subst h
    refine foldl_preserves _ ?_ slist b
    exact fun b a => ⟨rfl, rfl⟩
  · rw [if_neg ht] at h
    simp only [pure, Except.pure, Except.ok.injEq] at h
    subst h
    exact ⟨rfl, rfl⟩

theorem attach_name_translations_preserves {incorp : Json} {b b2 : Business}
    (h : attach_name_translations incorp b = .ok b2) :
    b2.identifier = b.identifier ∧ b2.founding_date = b.founding_date := by
  unfold attach_name_translations at h
  obtain ⟨nt, h1, h⟩ := bind_ok h
  simp only [pure, Except.pure, Except.ok.injEq] at h
  subst h
  by_cases ht : nt.truthy = true
  · rw [if_pos ht]
    exact update_aliases_preserves b nt
  · rw [if_neg ht]
    exact ⟨rfl, rfl⟩

theorem update_business_info_ok_some {corp_num : String} {b0 : Option Business}
    {business_info filing : Json} {fr0 : Option Filing} {b2 : Business}
    (h : update_business_info corp_num b0 business_info filing fr0 = .ok (some b2)) :
    ∃ fr, fr0 = some fr ∧ b2.identifier = some corp_num ∧
      b2.founding_date = some fr.effective_date := by
  unfold update_business_info at h
  cases b0 with
  | none => simp [pure, Except.pure] at h
  | some b =>
    cases fr0 with
    | none => simp [pure, Except.pure] at h
    | some fr =>
      refine ⟨fr, rfl, ?_⟩
      by_cases hc : (corp_num != "" && business_info.truthy && filing.truthy) = true
      · simp only [hc, if_true] at h
        obtain ⟨ln, h1, h⟩ := bind_ok h
        obtain ⟨lt, h2, h⟩ := bind_ok h
        simp only [pure, Except.pure, Except.ok.injEq, Option.some.injEq] at h
        subst h
        exact ⟨rfl, rfl⟩
      · simp only [Bool.not_eq_true] at hc
        simp only [hc, Bool.false_eq_true, if_false, pure, Except.pure] at h
        simp at h

/-- Re-parsing the finalized filing JSON returns the injected identifier
and founding date. -/
theorem finalize_filing_json_roundtrip {business : Business} {fr fr2 : Filing}
    {ident : String} {d : DateTime}
    (hid : business.identifier = some ident)
    (hfd : business.founding_date = some d)
    (h : finalize_filing_json business fr = .ok fr2) :
    (do
      let fj ← fr2.filing_json.getItem "filing"
      let bj ← fj.getItem "business"
      bj.getItem "identifier") = .ok (.str ident) ∧
    (do
      let fj ← fr2.filing_json.getItem "filing"
      let bj ← fj.getItem "business"
      bj.getItem "foundingDate") = .ok (.str d.isoformat) ∧
    fr2.id = fr.id ∧ fr2.effective_date = fr.effective_date := by
  unfold finalize_filing_json at h
  rw [hid] at h
  obtain ⟨filingObj, h1, h⟩ := bind_ok h
  obtain ⟨businessObj, h2, h⟩ := bind_ok h
  obtain ⟨businessObj2, h3, h⟩ := bind_ok h
  rw [hfd] at h
  obtain ⟨isoDate, h4, h⟩ := bind_ok h
  simp only [pure, Except.pure, Except.ok.injEq] at h4
  subst h4
  obtain ⟨businessObj3, h5, h⟩ := bind_ok h
  obtain ⟨filingObj2, h6, h⟩ := bind_ok h
  obtain ⟨fjson2, h7, h⟩ := bind_ok h
  simp only [pure, Except.pure, Except.ok.injEq] at h
  subst h
  obtain ⟨bfs, hbo, hb2⟩ := setItem_ok h3
  subst hbo
  obtain ⟨bfs2, hbo2, hb3⟩ := setItem_ok h5
  obtain ⟨ffs, hfo, hf2⟩ := setItem_ok h6
  subst hfo
  obtain ⟨tfs, hto, ht2⟩ := setItem_ok h7
  subst hb2 hb3 hf2 ht2
  refine ⟨?_, ?_, rfl, rfl⟩
  · simp only [Json.getItem, lookup_setField_self]
    injection hbo2 with hbfs
    rw [← hbfs]
    simp only [Bind.bind, Except.bind]
    simp only [Json.getItem, lookup_setField_self]
    rw [lookup_setField_ne _ _ _ _ (by decide), lookup_setField_self]
  · simp only [Json.getItem, lookup_setField_self]
    injection hbo2 with hbfs
    rw [← hbfs]
    simp only [Bind.bind, Except.bind]
    simp only [Json.getItem, lookup_setField_self]

/-- **C1**: for every filing record on which `process` completes
successfully, re-parsing the stored filing JSON yields
`filing.business.identifier` equal to the returned Business's
identifier and `filing.business.foundingDate` equal to the Business's
founding date formatted as ISO-8601, and that founding date equals the
filing record's `effective_date` (never a date from the payload). -/
theorem process_ok_roundtrip (colin : ColinResp) (b0 : Option Business) (filing : PyDict)
    (fr : Filing) (bus : Business) (fr2 : Filing)
    (h : process colin b0 filing fr = .ok (bus, fr2)) :
    ∃ ident, bus.identifier = some ident ∧
      bus.founding_date = some fr.effective_date ∧
      (do
        let fj ← fr2.filing_json.getItem "filing"
        let bj ← fj.getItem "business"
        bj.getItem "identifier") = .ok (.str ident) ∧
      (do
        let fj ← fr2.filing_json.getItem "filing"
        let bj ← fj.getItem "business"
        bj.getItem "foundingDate") = .ok (.str fr.effective_date.isoformat) := by
  unfold process at h
  try simp only [] at h
  by_cases hg1 : (!(PyDict.get filing "incorporationApplication").truthy) = true
  · simp only [hg1, if_true] at h
    exact absurd h (by simp [throw, throwThe, MonadExceptOf.throw, Bind.bind, Except.bind])
  simp only [hg1, Bool.false_eq_true, if_false, pure_bind] at h
  by_cases hg2 : b0.isSome = true
  · simp only [hg2, if_true] at h
    exact absurd h (by simp [throw, throwThe, MonadExceptOf.throw, Bind.bind, Except.bind])
  simp only [hg2, Bool.false_eq_true, if_false, pure_bind] at h
  obtain ⟨binfo, hnr, h⟩ := bind_ok h
  try simp only [] at h
  obtain ⟨ltj, hlt, h⟩ := bind_ok h
  try simp only [] at h
  cases hcn : get_next_corp_num colin (pyStr ltj) with
  | none =>
    rw [hcn] at h
    exact absurd h (by simp [throw, throwThe, MonadExceptOf.throw, Bind.bind, Except.bind])
  | some corp_num =>
  rw [hcn] at h
  by_cases hce : (corp_num == "") = true
  · simp only [hce, if_true] at h
    exact absurd h (by simp [throw, throwThe, MonadExceptOf.throw, Bind.bind, Except.bind])
  simp only [hce, Bool.false_eq_true, if_false, pure_bind] at h
  obtain ⟨bOpt, hub, h⟩ := bind_ok h
  try simp only [] at h
  cases bOpt with
  | none => exact absurd h (by simp [throw, throwThe, MonadExceptOf.throw, Bind.bind, Except.bind])
  | some business =>
  obtain ⟨b1, hoff, h⟩ := bind_ok h
  try simp only [] at h
  obtain ⟨b2, hpar, h⟩ := bind_ok h
  try simp only [] at h
  obtain ⟨b3, hshr, h⟩ := bind_ok h
  try simp only [] at h
  obtain ⟨b4, hnt, h⟩ := bind_ok h
  try simp only [] at h
  obtain ⟨frf, hfin, h⟩ := bind_ok h
  simp only [pure, Except.pure, Except.ok.injEq, Prod.mk.injEq] at h
  obtain ⟨hb, hf⟩ := h
  subst hb
  subst hf
  obtain ⟨fr', hfr', hbid, hbfd⟩ := update_business_info_ok_some hub
  injection hfr' with hfr'
  subst hfr'
  have p1 := attach_offices_preserves hoff
  have p2 := attach_parties_preserves hpar
  have p3 := attach_share_classes_preserves hshr
  have p4 := attach_name_translations_preserves hnt
  have hid4 : b4.identifier = some corp_num := by
    rw [p4.1, p3.1, p2.1, p1.1, hbid]
  have hfd4 : b4.founding_date = some fr.effective_date := by
    rw [p4.2, p3.2, p2.2, p1.2, hbfd]
  have hrt := finalize_filing_json_roundtrip hid4 hfd4 hfin
  exact ⟨corp_num, hid4, hfd4, hrt.1, hrt.2.1⟩

/-- Witness for C1: the end-to-end example filing processes successfully
and the round-trip holds on it. -/
theorem process_ok_roundtrip_witness :
    ∃ bus fr2, process (.resp 200 42) none exFiling exFilingRec = .ok (bus, fr2) ∧
      ∃ ident, bus.identifier = some ident ∧
        bus.founding_date = some exFilingRec.effective_date ∧
        (do
          let fj ← fr2.filing_json.getItem "filing"
          let bj ← fj.getItem "business"
          bj.getItem "identifier") = .ok (.str ident) ∧
        (do
          let fj ← fr2.filing_json.getItem "filing"
          let bj ← fj.getItem "business"
          bj.getItem "foundingDate") = .ok (.str exFilingRec.effective_date.isoformat) := by
  refine ⟨_, _, rfl, ?_⟩
  exact process_ok_roundtrip (.resp 200 42) none exFiling exFilingRec _ _ rfl

/-- Counterexample for C3 as stated: the allocator responds 200 with a
`corpNum` of 0, which is at most 9,999,999, yet `get_next_corp_num`
returns no identifier (Python truthiness rejects 0), not
`BC` ++ the zero-padded number. -/
theorem get_next_corp_num_zero_counterexample :
    (0 : Int) ≤ 9999999 ∧
    get_next_corp_num (.resp 200 0) "BC" = none ∧
    get_next_corp_num (.resp 200 0) "BC" ≠ some ("BC" ++ zeroPad7 0) := by
  refine ⟨by decide, rfl, ?_⟩
  intro h
  rw [show get_next_corp_num (.resp 200 0) "BC" = none from rfl] at h
  exact Option.noConfusion h

/-- **C3** (amended): `get_next_corp_num` returns the type code
concatenated with the allocated number zero-padded to 7 digits when the
allocator responds 200 with a *nonzero* `corpNum` of at most 9,999,999,
and returns none on connection failure, a non-200 response, a zero
`corpNum`, or a `corpNum` above 9,999,999; in particular
`{corpNum: 10000000}` yields no identifier and `{corpNum: 42}` with
type `BC` yields `BC0000042`. -/
theorem get_next_corp_num_spec (business_type : String) (status : Nat) (corpNum : Int) :
    get_next_corp_num .connError business_type = none ∧
    (status ≠ 200 → get_next_corp_num (.resp status corpNum) business_type = none) ∧
    (corpNum = 0 → get_next_corp_num (.resp status corpNum) business_type = none) ∧
    (9999999 < corpNum → get_next_corp_num (.resp status corpNum) business_type = none) ∧
    (status = 200 → corpNum ≠ 0 → corpNum ≤ 9999999 →
      get_next_corp_num (.resp status corpNum) business_type =
        some (business_type ++ zeroPad7 corpNum)) ∧
    get_next_corp_num (.resp 200 42) "BC" = some "BC0000042" ∧
    get_next_corp_num (.resp 200 10000000) business_type = none := by
  refine ⟨rfl, ?_, ?_, ?_, ?_, by decide, ?_⟩
  · intro h
    simp [get_next_corp_num, beq_eq_false_iff_ne.mpr h]
  · intro h
    subst h
    simp [get_next_corp_num]
  · intro h
    simp only [get_next_corp_num]
    have h1 : (decide (corpNum ≤ 9999999)) = false := by
      simp
      omega
    simp [h1]
  · intro h1 h2 h3
    subst h1
    simp only [get_next_corp_num]
    have hb : (corpNum != 0) = true := bne_iff_ne.mpr h2
    have hd : (decide (corpNum ≤ 9999999)) = true := decide_eq_true h3
    simp [hb, hd]
  · simp [get_next_corp_num]

/-- **C4**: `update_business_info` with all five arguments truthy and a
`business_info` containing no `legalName` returns a business whose
legal name is the identifier stripped of its first 2 characters
followed by ` B.C. LTD.`; for identifier `BC1234567` this is exactly
`1234567 B.C. LTD.`; with any falsy argument it returns `None`. -/
theorem update_business_info_spec :
    (∀ (corp_num : String) (b : Business) (fields : List (String × Json))
       (filing : Json) (fr : Filing),
      corp_num ≠ "" → (Json.obj fields).truthy = true → filing.truthy = true →
      fields.lookup "legalName" = none →
      ∃ b2, update_business_info corp_num (some b) (.obj fields) filing (some fr) =
          .ok (some b2) ∧
        b2.legal_name = .str (corp_num.drop 2 ++ " B.C. LTD.")) ∧
    (Except.map (Option.map Business.legal_name)
      (update_business_info "BC1234567" (some {}) (.obj [("legalType", .str "BC")])
        (.obj [("k", .num 1)]) (some exFilingRec)) =
      .ok (some (.str "1234567 B.C. LTD."))) ∧
    (∀ b0 bi f fr0, update_business_info "" b0 bi f fr0 = .ok none) ∧
    (∀ cn bi f fr0, update_business_info cn none bi f fr0 = .ok none) ∧
    (∀ cn b0 f fr0 bi, ¬ bi.truthy = true →
      update_business_info cn b0 bi f fr0 = .ok none) ∧
    (∀ cn b0 bi fr0 f, ¬ f.truthy = true →
      update_business_info cn b0 bi f fr0 = .ok none) ∧
    (∀ cn b0 bi f, update_business_info cn b0 bi f none = .ok none) := by
  refine ⟨?_, by rfl, ?_, ?_, ?_, ?_, ?_⟩
  · intro corp_num b fields filing fr h1 h2 h3 h4
    unfold update_business_info
    have hc : (corp_num != "" && (Json.obj fields).truthy && filing.truthy) = true := by
      simp [h2, h3, bne_iff_ne.mpr h1]
    simp only [hc, if_true]
    have hg : (Json.obj fields).get "legalName" = .ok .null := by
      simp [Json.get, h4]
    rw [hg]
    simp only [Bind.bind, Except.bind]
    obtain ⟨lt, hlt⟩ : ∃ v, (Json.obj fields).get "legalType" = .ok v := by
      simp only [Json.get]
      cases List.lookup "legalType" fields <;> exact ⟨_, rfl⟩
    rw [hlt]
    simp only [pure, Except.pure]
    exact ⟨_, rfl, rfl⟩
  · intro b0 bi f fr0
    unfold update_business_info
    cases b0 with
    | none => rfl
    | some b =>
      cases fr0 with
      | none => rfl
      | some fr => simp [pure, Except.pure]
  · intro cn bi f fr0
    unfold update_business_info
    rfl
  · intro cn b0 f fr0 bi hbi
    unfold update_business_info
    cases b0 with
    | none => rfl
    | some b =>
      cases fr0 with
      | none => rfl
      | some fr =>
        simp only [Bool.not_eq_true] at hbi
        simp [hbi, pure, Except.pure]
  · intro cn b0 bi fr0 f hf
    unfold update_business_info
    cases b0 with
    | none => rfl
    | some b =>
      cases fr0 with
      | none => rfl
      | some fr =>
        simp only [Bool.not_eq_true] at hf
        simp [hf, pure, Except.pure]
  · intro cn b0 bi f
    unfold update_business_info
    cases b0 with
    | none => rfl
    | some b => rfl

/-- Witness for C3: the amended success case instantiated at a 200
response carrying `corpNum` 42 for type `BC`. -/
theorem get_next_corp_num_spec_witness :
    get_next_corp_num (.resp 200 42) "BC" = some ("BC" ++ zeroPad7 42) :=
  (get_next_corp_num_spec "BC" 200 42).2.2.2.2.1 rfl (by decide) (by decide)

/-- Witness for C4: the fallback-name case instantiated at identifier
`BC1234567` with a `business_info` lacking `legalName`. -/
theorem update_business_info_spec_witness :
    ∃ b2, update_business_info "BC1234567" (some {}) (.obj [("legalType", .str "BC")])
        (.obj [("k", .num 1)]) (some exFilingRec) = .ok (some b2) ∧
      b2.legal_name = .str ("BC1234567".drop 2 ++ " B.C. LTD.") :=
  update_business_info_spec.1 "BC1234567" {} [("legalType", .str "BC")]
    (.obj [("k", .num 1)]) exFilingRec (by decide) (by decide) (by decide) rfl

theorem process_reaches_children {colin : ColinResp} {filing : PyDict} {fr : Filing}
    {ifs nfs : List (String × Json)} {ltj : Json} {corp_num : String}
    (hif : filing.lookup "incorporationApplication" = some (.obj ifs))
    (hift : (Json.obj ifs).truthy = true)
    (hnr : ifs.lookup "nameRequest" = some (.obj nfs))
    (hnft : (Json.obj nfs).truthy = true)
    (hlt : nfs.lookup "legalType" = some ltj)
    (hcn : get_next_corp_num colin (pyStr ltj) = some corp_num)
    (hcne : corp_num ≠ "") :
    ∃ b, update_business_info corp_num (some {}) (.obj nfs) (.obj ifs) (some fr) =
        .ok (some b) ∧
      process colin none filing fr = (do
        let b1 ← attach_offices (.obj ifs) b
        let b2 ← attach_parties (.obj ifs) b1
        let b3 ← attach_share_classes (.obj ifs) b2
        let b4 ← attach_name_translations (.obj ifs) b3
        let fr2 ← finalize_filing_json b4 fr
        pure (b4, fr2)) := by
  obtain ⟨b, hb⟩ : ∃ b, update_business_info corp_num (some {}) (.obj nfs) (.obj ifs)
      (some fr) = .ok (some b) := by
    unfold update_business_info
    have hc : (corp_num != "" && (Json.obj nfs).truthy && (Json.obj ifs).truthy) = true := by
      simp [hnft, hift, bne_iff_ne.mpr hcne]
    simp only [hc, if_true]
    simp only [Json.get]
    cases List.lookup "legalName" nfs <;>
      cases List.lookup "legalType" nfs <;>
      exact ⟨_, rfl⟩
  refine ⟨b, hb, ?_⟩
  unfold process
  have hpd : PyDict.get filing "incorporationApplication" = .obj ifs := by
    simp [PyDict.get, hif]
  rw [hpd]
  simp only [hift, Bool.not_true, Bool.false_eq_true, if_false, pure_bind,
    Option.isSome_none]
  simp only [Bind.bind, Except.bind, Json.get, Json.getItem, hnr, hlt, hcn, hb,
    beq_eq_false_iff_ne.mpr hcne, Bool.false_eq_true, if_false, pure_bind]

/-- **C7** (amended): `process` checks parties for `None` before
iterating but iterates offices unconditionally: under passing guards
and allocation, a filing whose `incorporationApplication` lacks the
`offices` key makes `process` fail with an `AttributeError` from
`None.items()`, while a filing lacking the `parties` key (with offices
and share classes present) processes successfully. -/
theorem process_no_offices_check {colin : ColinResp} {filing : PyDict} {fr : Filing}
    {ifs nfs : List (String × Json)} {ltj : Json} {corp_num : String}
    (hif : filing.lookup "incorporationApplication" = some (.obj ifs))
    (hift : (Json.obj ifs).truthy = true)
    (hnr : ifs.lookup "nameRequest" = some (.obj nfs))
    (hnft : (Json.obj nfs).truthy = true)
    (hlt : nfs.lookup "legalType" = some ltj)
    (hcn : get_next_corp_num colin (pyStr ltj) = some corp_num)
    (hcne : corp_num ≠ "")
    (hoff : ifs.lookup "offices" = none) :
    process colin none filing fr = .error (.attributeError "object has no attribute items") ∧
    ∃ bus fr2, process (.resp 200 42) none exFilingNoParties exFilingRec = .ok (bus, fr2) := by
  constructor
  · obtain ⟨b, hb, hch⟩ := process_reaches_children hif hift hnr hnft hlt hcn hcne
    rw [hch]
    have hoa : attach_offices (.obj ifs) b =
        .error (.attributeError "object has no attribute items") := by
      unfold attach_offices
      simp [Json.get, hoff, Json.items, Bind.bind, Except.bind]
    rw [hoa]
    rfl
  · exact ⟨_, _, rfl⟩

/-- **C8**: for a filing that passes the early guards, identifier
allocation and aggregate build (offices present, parties absent),
`process` raises a `KeyError` when the `incorporationApplication`
sub-object lacks the `shareClasses` key. -/
theorem process_missing_share_classes {colin : ColinResp} {filing : PyDict} {fr : Filing}
    {ifs nfs offs : List (String × Json)} {ltj : Json} {corp_num : String}
    (hif : filing.lookup "incorporationApplication" = some (.obj ifs))
    (hift : (Json.obj ifs).truthy = true)
    (hnr : ifs.lookup "nameRequest" = some (.obj nfs))
    (hnft : (Json.obj nfs).truthy = true)
    (hlt : nfs.lookup "legalType" = some ltj)
    (hcn : get_next_corp_num colin (pyStr ltj) = some corp_num)
    (hcne : corp_num ≠ "")
    (hoffp : ifs.lookup "offices" = some (.obj offs))
    (hpar : ifs.lookup "parties" = none)
    (hshr : ifs.lookup "shareClasses" = none) :
    process colin none filing fr = .error (.keyError "shareClasses") := by
  obtain ⟨b, hb, hch⟩ := process_reaches_children hif hift hnr hnft hlt hcn hcne
  rw [hch]
  have hoa : ∃ b1, attach_offices (.obj ifs) b = .ok b1 := by
    unfold attach_offices
    simp [Json.get, hoffp, Json.items, Bind.bind, Except.bind, pure, Except.pure]
  obtain ⟨b1, hoa⟩ := hoa
  rw [hoa]
  have hpa : attach_parties (.obj ifs) b1 = .ok b1 := by
    unfold attach_parties
    simp [Json.get, hpar, Json.truthy, Bind.bind, Except.bind, pure, Except.pure]
  have hsa : attach_share_classes (.obj ifs) b1 = .error (.keyError "shareClasses") := by
    unfold attach_share_classes
    simp [Json.getItem, hshr, Bind.bind, Except.bind]
  simp only [Bind.bind, Except.bind, hpa, hsa]

/-- Counterexample for C7 as stated: a filing that passes the early
guards but lacks the `offices` key makes `process` fail with an
`AttributeError` by iterating over the missing collection — so offices
are *not* `None`-checked before iterating. -/
theorem process_no_offices_counterexample :
    process (.resp 200 42) none exFilingNoOffices exFilingRec =
      .error (.attributeError "object has no attribute items") := rfl

/-- **C9**: a filing whose `incorporationApplication` is present
(truthy) but lacks the `nameRequest` key makes `process` raise a
`TypeError` (subscripting `None` with `legalType`), not the descriptive
queue-level exception of the other fatal cases. -/
theorem process_missing_name_request {colin : ColinResp} {filing : PyDict} {fr : Filing}
    {ifs : List (String × Json)}
    (hif : filing.lookup "incorporationApplication" = some (.obj ifs))
    (hift : (Json.obj ifs).truthy = true)
    (hnr : ifs.lookup "nameRequest" = none) :
    process colin none filing fr =
      .error (.typeError "NoneType object is not subscriptable") ∧
    ∀ m, process colin none filing fr ≠ .error (.queueException m) := by
  have hmain : process colin none filing fr =
      .error (.typeError "NoneType object is not subscriptable") := by
    unfold process
    have hpd : PyDict.get filing "incorporationApplication" = .obj ifs := by
      simp [PyDict.get, hif]
    rw [hpd]
    simp only [hift, Bool.not_true, Bool.false_eq_true, if_false, pure_bind,
      Option.isSome_none]
    simp only [Bind.bind, Except.bind, Json.get, Json.getItem, hnr]
  refine ⟨hmain, ?_⟩
  intro m hq
  rw [hmain] at hq
  exact PyErr.noConfusion (Except.error.inj hq)

theorem finalize_ok_requires {b : Business} {fr fr2 : Filing}
    (h : finalize_filing_json b fr = .ok fr2) :
    ∃ fj bj, fr.filing_json.getItem "filing" = .ok fj ∧ fj.getItem "business" = .ok bj := by
  unfold finalize_filing_json at h
  obtain ⟨fj, h1, h⟩ := bind_ok h
  obtain ⟨bj, h2, h⟩ := bind_ok h
  exact ⟨fj, bj, h1, h2⟩

theorem finalize_missing_business {b : Business} {fr : Filing} {ffs : List (String × Json)}
    (hfj : fr.filing_json.getItem "filing" = .ok (.obj ffs))
    (hbm : ffs.lookup "business" = none) :
    finalize_filing_json b fr = .error (.keyError "business") := by
  unfold finalize_filing_json
  simp only [Bind.bind, Except.bind, hfj]
  simp only [Json.getItem, hbm]

theorem process_ok_needs_filing_business {colin : ColinResp} {b0 : Option Business}
    {filing : PyDict} {fr : Filing} {bus : Business} {fr2 : Filing}
    (h : process colin b0 filing fr = .ok (bus, fr2)) :
    ∃ fj bj, fr.filing_json.getItem "filing" = .ok fj ∧ fj.getItem "business" = .ok bj := by
  unfold process at h
  try simp only [] at h
  by_cases hg1 : (!(PyDict.get filing "incorporationApplication").truthy) = true
  · simp only [hg1, if_true] at h
    exact absurd h (by simp [throw, throwThe, MonadExceptOf.throw, Bind.bind, Except.bind])
  simp only [hg1, Bool.false_eq_true, if_false, pure_bind] at h
  by_cases hg2 : b0.isSome = true
  · simp only [hg2, if_true] at h
    exact absurd h (by simp [throw, throwThe, MonadExceptOf.throw, Bind.bind, Except.bind])
  simp only [hg2, Bool.false_eq_true, if_false, pure_bind] at h
  obtain ⟨binfo, hnr, h⟩ := bind_ok h
  try simp only [] at h
  obtain ⟨ltj, hlt, h⟩ := bind_ok h
  try simp only [] at h
  cases hcn : get_next_corp_num colin (pyStr ltj) with
  | none =>
    rw [hcn] at h
    exact absurd h (by simp [throw, throwThe, MonadExceptOf.throw, Bind.bind, Except.bind])
  | some corp_num =>
  rw [hcn] at h
  by_cases hce : (corp_num == "") = true
  · simp only [hce, if_true] at h
    exact absurd h (by simp [throw, throwThe, MonadExceptOf.throw, Bind.bind, Except.bind])
  simp only [hce, Bool.false_eq_true, if_false, pure_bind] at h
  obtain ⟨bOpt, hub, h⟩ := bind_ok h
  try simp only [] at h
  cases bOpt with
  | none => exact absurd h (by simp [throw, throwThe, MonadExceptOf.throw, Bind.bind, Except.bind])
  | some business =>
  obtain ⟨b1, hoff, h⟩ := bind_ok h
  try simp only [] at h
  obtain ⟨b2, hpar, h⟩ := bind_ok h
  try simp only [] at h
  obtain ⟨b3, hshr, h⟩ := bind_ok h
  try simp only [] at h
  obtain ⟨b4, hnt, h⟩ := bind_ok h
  try simp only [] at h
  obtain ⟨frf, hfin, h⟩ := bind_ok h
  exact finalize_ok_requires hfin

theorem process_missing_filing_business {colin : ColinResp} {filing : PyDict} {fr : Filing}
    {ifs nfs offs ffs : List (String × Json)} {scl : List Json} {ltj : Json}
    {corp_num : String}
    (hif : filing.lookup "incorporationApplication" = some (.obj ifs))
    (hift : (Json.obj ifs).truthy = true)
    (hnr : ifs.lookup "nameRequest" = some (.obj nfs))
    (hnft : (Json.obj nfs).truthy = true)
    (hlt : nfs.lookup "legalType" = some ltj)
    (hcn : get_next_corp_num colin (pyStr ltj) = some corp_num)
    (hcne : corp_num ≠ "")
    (hoffp : ifs.lookup "offices" = some (.obj offs))
    (hpar : ifs.lookup "parties" = none)
    (hshr : ifs.lookup "shareClasses" = some (.arr scl))
    (hfj : fr.filing_json.getItem "filing" = .ok (.obj ffs))
    (hbm : ffs.lookup "business" = none) :
    process colin none filing fr = .error (.keyError "business") := by
  obtain ⟨b, hb, hch⟩ := process_reaches_children hif hift hnr hnft hlt hcn hcne
  rw [hch]
  obtain ⟨b1, hoa⟩ : ∃ b1, attach_offices (.obj ifs) b = .ok b1 := by
    unfold attach_offices
    simp [Json.get, hoffp, Json.items, Bind.bind, Except.bind, pure, Except.pure]
  rw [hoa]
  have hpa : attach_parties (.obj ifs) b1 = .ok b1 := by
    unfold attach_parties
    simp [Json.get, hpar, Json.truthy, Bind.bind, Except.bind, pure, Except.pure]
  obtain ⟨b3, hsa⟩ : ∃ b3, attach_share_classes (.obj ifs) b1 = .ok b3 := by
    unfold attach_share_classes
    cases scl with
    | nil =>
      simp [Json.getItem, hshr, Json.truthy, Bind.bind, Except.bind, pure, Except.pure,
        Json.iter, List.isEmpty]
    | cons hd tl =>
      simp [Json.getItem, hshr, Json.truthy, Bind.bind, Except.bind, pure, Except.pure,
        Json.iter, List.isEmpty]
  obtain ⟨b4, hna⟩ : ∃ b4, attach_name_translations (.obj ifs) b3 = .ok b4 := by
    unfold attach_name_translations
    simp only [Json.get, Bind.bind, Except.bind]
    cases List.lookup "nameTranslations" ifs <;> exact ⟨_, rfl⟩
  have hfin := finalize_missing_business (b := b4) hfj hbm
  simp only [Bind.bind, Except.bind, hpa, hsa, hna, hfin]

/-- **C10**: successful completion of `process` requires that the
stored filing JSON already contain the `filing.business` sub-object;
when it is missing, `process` fails with `KeyError` during payload
finalization, after the Business aggregate was fully built. -/
theorem process_filing_business_required :
    (∀ (colin : ColinResp) (b0 : Option Business) (filing : PyDict) (fr : Filing)
       (bus : Business) (fr2 : Filing), process colin b0 filing fr = .ok (bus, fr2) →
      ∃ fj bj, fr.filing_json.getItem "filing" = .ok fj ∧ fj.getItem "business" = .ok bj) ∧
    (∀ (colin : ColinResp) (filing : PyDict) (fr : Filing)
       (ifs nfs offs ffs : List (String × Json)) (scl : List Json) (ltj : Json)
       (corp_num : String),
      filing.lookup "incorporationApplication" = some (.obj ifs) →
      (Json.obj ifs).truthy = true →
      ifs.lookup "nameRequest" = some (.obj nfs) →
      (Json.obj nfs).truthy = true →
      nfs.lookup "legalType" = some ltj →
      get_next_corp_num colin (pyStr ltj) = some corp_num →
      corp_num ≠ "" →
      ifs.lookup "offices" = some (.obj offs) →
      ifs.lookup "parties" = none →
      ifs.lookup "shareClasses" = some (.arr scl) →
      fr.filing_json.getItem "filing" = .ok (.obj ffs) →
      ffs.lookup "business" = none →
      process colin none filing fr = .error (.keyError "business")) :=
  ⟨fun _ _ _ _ _ _ h => process_ok_needs_filing_business h,
   fun _ _ _ _ _ _ _ _ _ _ h1 h2 h3 h4 h5 h6 h7 h8 h9 h10 h11 h12 =>
     process_missing_filing_business h1 h2 h3 h4 h5 h6 h7 h8 h9 h10 h11 h12⟩

/-- Witness for C7: the amended statement instantiated at the concrete
no-offices filing. -/
theorem process_no_offices_check_witness :
    process (.resp 200 42) none exFilingNoOffices exFilingRec =
      .error (.attributeError "object has no attribute items") ∧
    ∃ bus fr2, process (.resp 200 42) none exFilingNoParties exFilingRec = .ok (bus, fr2) :=
  process_no_offices_check (by rfl) (by decide) (by rfl) (by decide) (by rfl)
    (by rfl) (by decide) (by rfl)

/-- Witness for C8: instantiated at the concrete filing lacking
`shareClasses`. -/
theorem process_missing_share_classes_witness :
    process (.resp 200 42) none exFilingNoShares exFilingRec =
      .error (.keyError "shareClasses") :=
  process_missing_share_classes (by rfl) (by decide) (by rfl) (by decide) (by rfl)
    (by rfl) (by decide) (by rfl) (by rfl) (by rfl)

/-- Witness for C9: instantiated at the concrete filing lacking
`nameRequest`. -/
theorem process_missing_name_request_witness :
    process (.resp 200 42) none exFilingNoNR exFilingRec =
      .error (.typeError "NoneType object is not subscriptable") ∧
    ∀ m, process (.resp 200 42) none exFilingNoNR exFilingRec ≠
      .error (.queueException m) :=
  process_missing_name_request (by rfl) (by decide) (by rfl)

/-- Witness for C10: the precondition holds on the successful example,
and the concrete filing record lacking `filing.business` fails with
`KeyError`. -/
theorem process_filing_business_required_witness :
    (∃ fj bj, exFilingRec.filing_json.getItem "filing" = .ok fj ∧
      fj.getItem "business" = .ok bj) ∧
    process (.resp 200 42) none exFilingNoParties exFilingRecNoBiz =
      .error (.keyError "business") := by
  constructor
  · exact process_filing_business_required.1 (.resp 200 42) none exFiling exFilingRec _ _ rfl
  · exact process_filing_business_required.2 (.resp 200 42) exFilingNoParties
      exFilingRecNoBiz _ _ _ _ _ _ _ (by rfl) (by decide) (by rfl) (by decide) (by rfl)
      (by rfl) (by decide) (by rfl) (by rfl) (by rfl) (by rfl) (by rfl)

theorem bind_error {α β : Type} {e : Except PyErr α} {k : α → Except PyErr β} {err : PyErr}
    (h : e >>= k = .error err) :
    e = .error err ∨ ∃ a, e = .ok a ∧ k a = .error err := by
  cases e with
  | error e0 =>
    left
    simp [Bind.bind, Except.bind] at h
    rw [h]
  | ok a =>
    right
    exact ⟨a, rfl, by simpa [Bind.bind, Except.bind] using h⟩

theorem get_error_not_queue {j : Json} {k : String} {e : PyErr}
    (h : j.get k = .error e) : e.isQueue = false := by
  unfold Json.get at h
  split at h
  · split at h <;> simp at h
  · injection h with h2
    subst h2
    rfl

theorem getItem_error_not_queue {j : Json} {k : String} {e : PyErr}
    (h : j.getItem k = .error e) : e.isQueue = false := by
  unfold Json.getItem at h
  split at h
  · split at h
    · simp at h
    · injection h with h2
      subst h2
      rfl
  · injection h with h2
    subst h2
    rfl
  · injection h with h2
    subst h2
    rfl

theorem items_error_not_queue {j : Json} {e : PyErr}
    (h : j.items = .error e) : e.isQueue = false := by
  unfold Json.items at h
  split at h
  · simp at h
  · injection h with h2
    subst h2
    rfl

theorem iter_error_not_queue {j : Json} {e : PyErr}
    (h : j.iter = .error e) : e.isQueue = false := by
  unfold Json.iter at h
  split at h
  · simp at h
  · injection h with h2
    subst h2
    rfl
  · injection h with h2
    subst h2
    rfl

theorem setItem_error_not_queue {j v : Json} {k : String} {e : PyErr}
    (h : j.setItem k v = .error e) : e.isQueue = false := by
  unfold Json.setItem at h
  split at h
  · simp at h
  · injection h with h2
    subst h2
    rfl
  · injection h with h2
    subst h2
    rfl

theorem update_business_info_error_not_queue {cn : String} {b0 : Option Business}
    {bi f : Json} {fr0 : Option Filing} {e : PyErr}
    (h : update_business_info cn b0 bi f fr0 = .error e) : e.isQueue = false := by
  unfold update_business_info at h
  cases b0 with
  | none => simp [pure, Except.pure] at h
  | some b =>
    cases fr0 with
    | none => simp [pure, Except.pure] at h
    | some fr =>
      by_cases hc : (cn != "" && bi.truthy && f.truthy) = true
      · simp only [hc, if_true] at h
        rcases bind_error h with h | ⟨ln, hln, h⟩
        · exact get_error_not_queue h
        · rcases bind_error h with h | ⟨lt, hlt, h⟩
          · exact get_error_not_queue h
          · simp [pure, Except.pure] at h
      · simp only [Bool.not_eq_true] at hc
        simp only [hc, Bool.false_eq_true, if_false, pure, Except.pure] at h
        simp at h

theorem foldlM_error_not_queue {α : Type} (f : Business → α → Except PyErr Business)
    (hf : ∀ b a e, f b a = .error e → PyErr.isQueue e = false) :
    ∀ (l : List α) (b : Business) (e : PyErr), List.foldlM f b l = .error e →
      PyErr.isQueue e = false := by
  intro l
  induction l with
  | nil =>
    intro b e h
    simp [List.foldlM, pure, Except.pure] at h
  | cons a tl ih =>
    intro b e h
    simp only [List.foldlM] at h
    cases hfa : f b a with
    | error e0 =>
      rw [hfa] at h
      simp [Bind.bind, Except.bind] at h
      subst h
      exact hf b a e0 hfa
    | ok b1 =>
      rw [hfa] at h
      simp only [Bind.bind, Except.bind] at h
      exact ih b1 e h

theorem attach_offices_error_not_queue {incorp : Json} {b : Business} {e : PyErr}
    (h : attach_offices incorp b = .error e) : e.isQueue = false := by
  unfold attach_offices at h
  rcases bind_error h with h | ⟨offices, h1, h⟩
  · exact get_error_not_queue h
  rcases bind_error h with h | ⟨items, h2, h⟩
  · exact items_error_not_queue h
  simp [pure, Except.pure] at h

theorem attach_parties_error_not_queue {incorp : Json} {b : Business} {e : PyErr}
    (h : attach_parties incorp b = .error e) : e.isQueue = false := by
  unfold attach_parties at h
  rcases bind_error h with h | ⟨parties, h1, h⟩
  · exact get_error_not_queue h
  by_cases ht : parties.truthy = true
  · rw [if_pos ht] at h
    rcases bind_error h with h | ⟨plist, h2, h⟩
    · exact iter_error_not_queue h
    refine foldlM_error_not_queue _ ?_ plist b e h
    intro b a e hstep
    rcases bind_error hstep with hstep | ⟨roles, hr, hstep⟩
    · exact get_error_not_queue hstep
    rcases bind_error hstep with hstep | ⟨rlist, hrl, hstep⟩
    · exact iter_error_not_queue hstep
    refine foldlM_error_not_queue _ ?_ rlist b e hstep
    intro b rt e hs
    rcases bind_error hs with hs | ⟨x1, hx1, hs⟩
    · exact get_error_not_queue hs
    rcases bind_error hs with hs | ⟨x2, hx2, hs⟩
    · exact get_error_not_queue hs
    rcases bind_error hs with hs | ⟨x3, hx3, hs⟩
    · exact get_error_not_queue hs
    simp [pure, Except.pure] at hs
  · rw [if_neg ht] at h
    simp [pure, Except.pure] at h

theorem attach_share_classes_error_not_queue {incorp : Json} {b : Business} {e : PyErr}
    (h : attach_share_classes incorp b = .error e) : e.isQueue = false := by
  unfold attach_share_classes at h
  rcases bind_error h with h | ⟨sc, h1, h⟩
  · exact getItem_error_not_queue h
  by_cases ht : sc.truthy = true
  · rw [if_pos ht] at h
    rcases bind_error h with h | ⟨slist, h2, h⟩
    · exact iter_error_not_queue h
    simp [pure, Except.pure] at h
  · rw [if_neg ht] at h
    simp [pure, Except.pure] at h

theorem attach_name_translations_error_not_queue {incorp : Json} {b : Business} {e : PyErr}
    (h : attach_name_translations incorp b = .error e) : e.isQueue = false := by
  unfold attach_name_translations at h
  rcases bind_error h with h | ⟨nt, h1, h⟩
  · exact get_error_not_queue h
  simp [pure, Except.pure] at h

theorem finalize_error_not_queue {b : Business} {fr : Filing} {e : PyErr}
    (h : finalize_filing_json b fr = .error e) : e.isQueue = false := by
  unfold finalize_filing_json at h
  rcases bind_error h with h | ⟨fj, h1, h⟩
  · exact getItem_error_not_queue h
  rcases bind_error h with h | ⟨bj, h2, h⟩
  · exact getItem_error_not_queue h
  rcases bind_error h with h | ⟨bj2, h3, h⟩
  · exact setItem_error_not_queue h
  cases hfd : b.founding_date with
  | none =>
    rw [hfd] at h
    simp only [throw, throwThe, MonadExceptOf.throw, Bind.bind, Except.bind,
      Except.error.injEq] at h
    subst h
    rfl
  | some d =>
  rw [hfd] at h
  simp only [pure_bind] at h
  rcases bind_error h with h | ⟨bj3, h5, h⟩
  · exact setItem_error_not_queue h
  rcases bind_error h with h | ⟨fj2, h6, h⟩
  · exact setItem_error_not_queue h
  rcases bind_error h with h | ⟨fjson2, h7, h⟩
  · exact setItem_error_not_queue h
  simp [pure, Except.pure] at h

/-- When the two early guards pass, any queue-level exception raised by
`process` carries the allocation-failure or build-failure message, never
the early-guard messages. -/
theorem process_queue_error_classified {colin : ColinResp} {filing : PyDict} {fr : Filing}
    {m : String}
    (ht : (PyDict.get filing "incorporationApplication").truthy = true)
    (h : process colin none filing fr = .error (.queueException m)) :
    m = msgNoCorpNum fr.id ∨ m = msgNoBusiness fr.id := by
  unfold process at h
  try simp only [] at h
  simp only [ht, Bool.not_true, Bool.false_eq_true, if_false, pure_bind,
    Option.isSome_none] at h
  rcases bind_error h with h | ⟨binfo, hb, h⟩
  · exact absurd (get_error_not_queue h) (by simp [PyErr.isQueue])
  try simp only [] at h
  rcases bind_error h with h | ⟨ltj, hlt, h⟩
  · exact absurd (getItem_error_not_queue h) (by simp [PyErr.isQueue])
  try simp only [] at h
  cases hcn : get_next_corp_num colin (pyStr ltj) with
  | none =>
    rw [hcn] at h
    simp only [throw, throwThe, MonadExceptOf.throw, Bind.bind, Except.bind,
      Except.error.injEq, PyErr.queueException.injEq] at h
    exact Or.inl h.symm
  | some corp_num =>
  rw [hcn] at h
  by_cases hce : (corp_num == "") = true
  · simp only [hce, if_true] at h
    simp only [throw, throwThe, MonadExceptOf.throw, Bind.bind, Except.bind,
      Except.error.injEq, PyErr.queueException.injEq] at h
    exact Or.inl h.symm
  simp only [hce, Bool.false_eq_true, if_false, pure_bind] at h
  rcases bind_error h with h | ⟨bOpt, hub, h⟩
  · exact absurd (update_business_info_error_not_queue h) (by simp [PyErr.isQueue])
  try simp only [] at h
  cases bOpt with
  | none =>
    simp only [throw, throwThe, MonadExceptOf.throw, Bind.bind, Except.bind,
      Except.error.injEq, PyErr.queueException.injEq] at h
    exact Or.inr h.symm
  | some business =>
  rcases bind_error h with h | ⟨b1, hoff, h⟩
  · exact absurd (attach_offices_error_not_queue h) (by simp [PyErr.isQueue])
  try simp only [] at h
  rcases bind_error h with h | ⟨b2, hpar, h⟩
  · exact absurd (attach_parties_error_not_queue h) (by simp [PyErr.isQueue])
  try simp only [] at h
  rcases bind_error h with h | ⟨b3, hshr, h⟩
  · exact absurd (attach_share_classes_error_not_queue h) (by simp [PyErr.isQueue])
  try simp only [] at h
  rcases bind_error h with h | ⟨b4, hnt, h⟩
  · exact absurd (attach_name_translations_error_not_queue h) (by simp [PyErr.isQueue])
  try simp only [] at h
  rcases bind_error h with h | ⟨frf, hfin, h⟩
  · exact absurd (finalize_error_not_queue h) (by simp [PyErr.isQueue])
  simp [pure, Except.pure] at h

theorem msgNoCorpNum_ne_msgMissing (a b : Nat) : msgNoCorpNum a ≠ msgMissing b := by
  intro h
  unfold msgNoCorpNum msgMissing at h
  have h2 := congrArg String.data h
  simp only [String.data_append] at h2
  simp at h2

theorem msgNoCorpNum_ne_msgExists (a b : Nat) : msgNoCorpNum a ≠ msgExists b := by
  intro h
  unfold msgNoCorpNum msgExists at h
  have h2 := congrArg String.data h
  simp only [String.data_append] at h2
  simp at h2

theorem msgNoBusiness_ne_msgMissing (a b : Nat) : msgNoBusiness a ≠ msgMissing b := by
  intro h
  unfold msgNoBusiness msgMissing at h
  have h2 := congrArg String.data h
  simp only [String.data_append] at h2
  simp at h2

theorem msgNoBusiness_ne_msgExists (a b : Nat) : msgNoBusiness a ≠ msgExists b := by
  intro h
  unfold msgNoBusiness msgExists at h
  have h2 := congrArg String.data h
  simp only [String.data_append] at h2
  simp at h2

/-- **C2**: `process` raises a queue-level exception whose message
references the filing record's identifier, and creates no Business, in
exactly the two early cases: when the filing JSON lacks (a truthy)
`incorporationApplication`, and when a Business was already resolved
for this filing.  When both guards pass, neither early-guard message
can be raised (the only queue-level messages downstream are the
allocation-failure and build-failure ones). -/
theorem process_early_guards_spec :
    (∀ (colin : ColinResp) (b0 : Option Business) (filing : PyDict) (fr : Filing),
      ¬(PyDict.get filing "incorporationApplication").truthy = true →
      process colin b0 filing fr = .error (.queueException (msgMissing fr.id))) ∧
    (∀ (colin : ColinResp) (b0 : Option Business) (filing : PyDict) (fr : Filing)
       (b : Business),
      (PyDict.get filing "incorporationApplication").truthy = true → b0 = some b →
      process colin b0 filing fr = .error (.queueException (msgExists fr.id))) ∧
    (∀ fid, ∃ pre, msgMissing fid = pre ++ toString fid) ∧
    (∀ fid, ∃ pre, msgExists fid = pre ++ toString fid) ∧
    (∀ (colin : ColinResp) (filing : PyDict) (fr : Filing),
      (PyDict.get filing "incorporationApplication").truthy = true →
      process colin none filing fr ≠ .error (.queueException (msgMissing fr.id)) ∧
      process colin none filing fr ≠ .error (.queueException (msgExists fr.id))) := by
  refine ⟨?_, ?_, ?_, ?_, ?_⟩
  · intro colin b0 filing fr ht
    unfold process
    simp only [Bool.not_eq_true] at ht
    simp only [ht, Bool.not_false, if_true]
    simp [throw, throwThe, MonadExceptOf.throw, Bind.bind, Except.bind]
  · intro colin b0 filing fr b ht hb
    subst hb
    unfold process
    simp only [ht, Bool.not_true, Bool.false_eq_true, if_false, pure_bind,
      Option.isSome_some, if_true]
    simp [throw, throwThe, MonadExceptOf.throw, Bind.bind, Except.bind]
  · intro fid
    exact ⟨"IA legal_filing:incorporationApplication missing from ", rfl⟩
  · intro fid
    exact ⟨"Business Already Exist: IA legal_filing:incorporationApplication ", rfl⟩
  · intro colin filing fr ht
    constructor
    · intro h
      rcases process_queue_error_classified ht h with he | he
      · exact msgNoCorpNum_ne_msgMissing fr.id fr.id he.symm
      · exact msgNoBusiness_ne_msgMissing fr.id fr.id he.symm
    · intro h
      rcases process_queue_error_classified ht h with he | he
      · exact msgNoCorpNum_ne_msgExists fr.id fr.id he.symm
      · exact msgNoBusiness_ne_msgExists fr.id fr.id he.symm

/-- Witness for C2: both guard failures at concrete inputs, plus the
exactness part at a concrete passing input. -/
theorem process_early_guards_spec_witness :
    process (.resp 200 42) none [] exFilingRec =
      .error (.queueException (msgMissing exFilingRec.id)) ∧
    process (.resp 200 42) (some exBusiness) exFiling exFilingRec =
      .error (.queueException (msgExists exFilingRec.id)) ∧
    (∃ pre, msgMissing exFilingRec.id = pre ++ toString exFilingRec.id) ∧
    (process (.resp 200 42) none exFiling exFilingRec ≠
      .error (.queueException (msgMissing exFilingRec.id)) ∧
     process (.resp 200 42) none exFiling exFilingRec ≠
      .error (.queueException (msgExists exFilingRec.id))) :=
  ⟨process_early_guards_spec.1 (.resp 200 42) none [] exFilingRec (by decide),
   process_early_guards_spec.2.1 (.resp 200 42) (some exBusiness) exFiling exFilingRec
     exBusiness (by decide) rfl,
   process_early_guards_spec.2.2.1 exFilingRec.id,
   process_early_guards_spec.2.2.2.2 (.resp 200 42) exFiling exFilingRec (by decide)⟩

/-- **C5**: `update_affiliation` never propagates an exception to its
caller, and whenever the primary affiliation-creation call returns a
result code outside the success set {200, 201}, exactly one cleanup
deletion call — deleting the affiliation keyed to the new business
identifier — is issued and a monitoring (sentry) event is recorded. -/
theorem update_affiliation_spec :
    (∀ (env : AffilEnv) (business : Business) (filing : Filing),
      (update_affiliation env business filing).raised = none) ∧
    (∀ (env : AffilEnv) (business : Business) (filing : Filing) (bs : Bootstrap) (rv : Nat),
      env.find_bootstrap = some bs →
      env.create_rv = .ok rv → rv ≠ 200 → rv ≠ 201 →
      ((update_affiliation env business filing).calls.filter AffilCall.isDelete) =
        [AffilCall.deleteAffiliation bs.account (optStrJson business.identifier)] ∧
      (update_affiliation env business filing).sentries ≠ []) := by
  constructor
  · intro env business filing
    unfold update_affiliation
    rcases h : update_affiliation_body env business filing with ⟨calls, sentries, raised⟩
    cases raised <;> rfl
  · intro env business filing bs rv hfb hcr h200 h201
    have hc : (rv != 200 && rv != 201) = true := by
      simp [bne_iff_ne.mpr h200, bne_iff_ne.mpr h201]
    have hbody : ∃ s r, update_affiliation_body env business filing =
        ([AffilCall.createAffiliation bs.account (optStrJson business.identifier)
            business.legal_name business.legal_type,
          AffilCall.deleteAffiliation bs.account (optStrJson business.identifier)], s, some r) := by
      unfold update_affiliation_body
      rw [hfb, hcr]
      simp only [hc, if_true]
      cases env.delete_business_rv with
      | error e => exact ⟨[], e, rfl⟩
      | ok deaff => exact ⟨[affilUnableMsg business filing], .queueException "", rfl⟩
    obtain ⟨s, r, hbody⟩ := hbody
    unfold update_affiliation
    rw [hbody]
    constructor
    · simp [List.filter, AffilCall.isDelete]
    · simp

/-- **C6**: `consume_nr` performs zero outbound calls and returns
without error (and without a monitoring event) when the filing JSON
lacks the `nrNumber` field; it never propagates any failure to its
caller; and, for well-formed service failures (which are never
`KeyError`s), it records a monitoring event exactly when some step
failed: no sentry message is recorded iff the token fetch, the namex
patch (status 200), the bootstrap lookup and the affiliation deletion
all succeeded. -/
theorem consume_nr_spec :
    (∀ (env : NrEnv) (business : Business) (filing : Filing),
      (consume_nr env business filing).raised = none) ∧
    (∀ (env : NrEnv) (business : Business) (filing : Filing) (k : String),
      nr_num_of filing = .error (.keyError k) →
      (consume_nr env business filing).calls = [] ∧
      (consume_nr env business filing).sentries = []) ∧
    (∀ (filing : Filing) (fj ia : Json) (nrs : List (String × Json)),
      filing.filing_json.getItem "filing" = .ok fj →
      fj.getItem "incorporationApplication" = .ok ia →
      ia.getItem "nameRequest" = .ok (.obj nrs) →
      nrs.lookup "nrNumber" = none →
      nr_num_of filing = .error (.keyError "nrNumber")) ∧
    (∀ (env : NrEnv) (business : Business) (filing : Filing) (nrs : String),
      nr_num_of filing = .ok (.str nrs) →
      (∀ k, env.token ≠ .error (.keyError k)) →
      (∀ k, env.patch_rv ≠ .error (.keyError k)) →
      (∀ k, env.delete_rv ≠ .error (.keyError k)) →
      ((consume_nr env business filing).sentries = [] ↔
        (exceptOk env.token = true ∧ env.patch_rv = .ok 200 ∧
         env.find_bootstrap.isSome = true ∧ exceptOk env.delete_rv = true))) := by
  refine ⟨?_, ?_, ?_, ?_⟩
  · intro env business filing
    unfold consume_nr
    rcases h : consume_nr_body env business filing with ⟨calls, raised⟩
    match raised with
    | none => rfl
    | some (.keyError k) => rfl
    | some (.queueException m) => rfl
    | some (.typeError m) => rfl
    | some (.attributeError m) => rfl
  · intro env business filing k hk
    unfold consume_nr consume_nr_body
    rw [hk]
    exact ⟨rfl, rfl⟩
  · intro filing fj ia nrs h1 h2 h3 h4
    unfold nr_num_of
    simp only [Bind.bind, Except.bind, h1, h2, h3]
    simp only [Json.getItem, h4]
  · intro env business filing nrs hnr htk hpk hdk
    unfold consume_nr consume_nr_body
    rw [hnr]
    cases htok : env.token with
    | error e =>
      cases e with
      | keyError k => exact absurd htok (htk k)
      | queueException m => simp [exceptOk, htok]
      | typeError m => simp [exceptOk, htok]
      | attributeError m => simp [exceptOk, htok]
    | ok tok =>
      cases hpatch : env.patch_rv with
      | error e =>
        cases e with
        | keyError k => exact absurd hpatch (hpk k)
        | queueException m => simp [exceptOk, hpatch]
        | typeError m => simp [exceptOk, hpatch]
        | attributeError m => simp [exceptOk, hpatch]
      | ok status =>
        by_cases hs : status = 200
        · subst hs
          simp only [bne_self_eq_false, Bool.false_eq_true, if_false]
          cases hfb : env.find_bootstrap with
          | none => simp [exceptOk, hfb]
          | some bs =>
            cases hdel : env.delete_rv with
            | error e =>
              cases e with
              | keyError k => exact absurd hdel (hdk k)
              | queueException m => simp [exceptOk, hdel, hfb]
              | typeError m => simp [exceptOk, hdel, hfb]
              | attributeError m => simp [exceptOk, hdel, hfb]
            | ok v => simp [exceptOk, hdel, hfb]
        · have hbne : (status != 200) = true := bne_iff_ne.mpr hs
          simp only [hbne, if_true]
          simp [exceptOk, hs]

/-- Witness for C5: concrete run with the creation call returning 400. -/
theorem update_affiliation_spec_witness :
    (update_affiliation exAffilEnvFail exBusiness exFilingRec).raised = none ∧
    ((update_affiliation exAffilEnvFail exBusiness exFilingRec).calls.filter
      AffilCall.isDelete) =
      [AffilCall.deleteAffiliation exBootstrap.account (optStrJson exBusiness.identifier)] ∧
    (update_affiliation exAffilEnvFail exBusiness exFilingRec).sentries ≠ [] :=
  ⟨update_affiliation_spec.1 exAffilEnvFail exBusiness exFilingRec,
   (update_affiliation_spec.2 exAffilEnvFail exBusiness exFilingRec exBootstrap 400
     rfl rfl (by decide) (by decide)).1,
   (update_affiliation_spec.2 exAffilEnvFail exBusiness exFilingRec exBootstrap 400
     rfl rfl (by decide) (by decide)).2⟩

/-- Witness for C6: concrete runs with and without `nrNumber`. -/
theorem consume_nr_spec_witness :
    (consume_nr exNrEnv exBusiness exFilingRecWithNR).raised = none ∧
    ((consume_nr exNrEnv exBusiness exFilingRecNoNR).calls = [] ∧
     (consume_nr exNrEnv exBusiness exFilingRecNoNR).sentries = []) ∧
    nr_num_of exFilingRecNoNR = .error (.keyError "nrNumber") ∧
    ((consume_nr exNrEnv exBusiness exFilingRecWithNR).sentries = [] ↔
      (exceptOk exNrEnv.token = true ∧ exNrEnv.patch_rv = .ok 200 ∧
       exNrEnv.find_bootstrap.isSome = true ∧ exceptOk exNrEnv.delete_rv = true)) :=
  ⟨consume_nr_spec.1 exNrEnv exBusiness exFilingRecWithNR,
   consume_nr_spec.2.1 exNrEnv exBusiness exFilingRecNoNR "nrNumber" rfl,
   consume_nr_spec.2.2.1 exFilingRecNoNR _ _ _ rfl rfl rfl rfl,
   consume_nr_spec.2.2.2 exNrEnv exBusiness exFilingRecWithNR "NR 1234567" rfl
     (by intro k h; simp [exNrEnv] at h) (by intro k h; simp [exNrEnv] at h)
     (by intro k h; simp [exNrEnv] at h)⟩
